import Mathlib

set_option maxRecDepth 1000000

set_option maxHeartbeats 4000000

/-!
# Verification of the procedural water-surface shading model

A shallow embedding, over the rational numbers, of the fragment shader
`src/assets/water_fragment.glsl`: the pure function that maps a surface
sample `(uv, uv2, time, resolution, patternScale, timeScale)` to an RGBA
color.

Modelling conventions:

* GLSL `highp float` arithmetic is modelled as exact rational arithmetic;
  numeric literals of the source denote the corresponding exact rationals.
  The single exception is the hash constant `n_ = 0.142857142857` inside
  `snoise`: the surrounding integer decode (`floor(j*ns.z)` etc.) depends on
  the machine value of this literal being at least `1/7`, and the IEEE
  binary32 value of the literal is `9586981/2^26 = 1/7 + 2^-26·3/7·…` which
  is slightly *above* `1/7`, while the exact decimal value is slightly
  *below*.  We embed the binary32 value so the gradient decode behaves as in
  the compiled shader.
* Division in `ℚ` follows Lean's `q / 0 = 0` convention.  The only places
  the shader can actually divide by zero are `normalize` on the zero vector
  and the `smoothstep` edge denominator; `normalize` of the zero vector and
  `atan` at `(0,0)` are undefined in GLSL and are modelled as `Option`
  failures, while a zero-width `smoothstep` (which can only arise from a
  zero `fwidth`) is left total under the `q / 0 = 0` convention.
* The GPU-only operations `sin`, `atan`, `sqrt`, `pow` and the screen-space
  derivative `fwidth` are supplied by a `MathB` "backend" record; the
  axioms a real implementation satisfies (boundedness of `sin`,
  monotonicity of `pow` on `[0,1]`, nonnegativity of `fwidth`, …) are
  collected in `MathBOk`.  Theorems quantify over every backend satisfying
  `MathBOk`; witnesses instantiate the concrete computable backend `zeroB`.
* The helpers `hash3`/`worley` (kept in the source "for potential future
  use") and `rotate2d`/`calculate_streaks` (streaks are disabled and never
  invoked from `main`) are not consumed by the shader's `main` and are
  omitted, as the spec explicitly allows.
-/

namespace Water

/- Batteries marks the arithmetic on `Rat` `@[irreducible]`; re-tag it
`semireducible` so that concrete shader evaluations can be certified by
`decide` (the kernel ignores reducibility attributes, so this does not
change what is provable). -/
attribute [local semireducible] Rat.add Rat.sub Rat.mul Rat.inv Rat.ofScientific

/-- A 2-component vector of rationals (GLSL `vec2`). -/
structure Vec2 where
  x : ℚ
  y : ℚ
deriving DecidableEq

/-- A 3-component vector of rationals (GLSL `vec3`). -/
structure Vec3 where
  x : ℚ
  y : ℚ
  z : ℚ
deriving DecidableEq

/-- A 4-component vector of rationals (GLSL `vec4`). -/
structure Vec4 where
  x : ℚ
  y : ℚ
  z : ℚ
  w : ℚ
deriving DecidableEq

instance : Add Vec2 := ⟨fun a b => ⟨a.x + b.x, a.y + b.y⟩⟩

instance : Sub Vec2 := ⟨fun a b => ⟨a.x - b.x, a.y - b.y⟩⟩

instance : Add Vec3 := ⟨fun a b => ⟨a.x + b.x, a.y + b.y, a.z + b.z⟩⟩

/-- Scale a `Vec2` by a rational (GLSL `vec * scalar`). -/
def smul2 (c : ℚ) (v : Vec2) : Vec2 := ⟨c * v.x, c * v.y⟩

/-- Scale a `Vec3` by a rational. -/
def smul3 (c : ℚ) (v : Vec3) : Vec3 := ⟨c * v.x, c * v.y, c * v.z⟩

/-- Apply a scalar function to all components of a `Vec4`. -/
def map4 (f : ℚ → ℚ) (v : Vec4) : Vec4 := ⟨f v.x, f v.y, f v.z, f v.w⟩

/-- GLSL `dot` on `vec2`. -/
def dot2 (a b : Vec2) : ℚ := a.x * b.x + a.y * b.y

/-- GLSL `dot` on `vec3`. -/
def dot3 (a b : Vec3) : ℚ := a.x * b.x + a.y * b.y + a.z * b.z

/-- GLSL `floor`, landing back in `ℚ`. -/
def floorQ (q : ℚ) : ℚ := (q.floor : ℚ)

/-- GLSL `fract`. -/
def fractQ (q : ℚ) : ℚ := q - floorQ q

/-- GLSL `step(edge, x)`: `0` if `x < edge`, else `1`. -/
def stepQ (edge x : ℚ) : ℚ := if x < edge then 0 else 1

/-- GLSL `clamp(x, lo, hi) = min(max(x, lo), hi)`. -/
def clampQ (x lo hi : ℚ) : ℚ := min (max x lo) hi

/-- GLSL `mix(a, b, t) = a*(1-t) + b*t`. -/
def mixQ (a b t : ℚ) : ℚ := a * (1 - t) + b * t

/-- GLSL `smoothstep(e0, e1, x)`: Hermite interpolation of the clamped
ramp.  (With `e0 = e1` the ramp divides by zero; under the `q / 0 = 0`
convention the result is then `0`.) -/
def smoothstepQ (e0 e1 x : ℚ) : ℚ :=
  let t := clampQ ((x - e0) / (e1 - e0)) 0 1
  t * t * (3 - 2 * t)

/-! ## Simplex noise (`snoise`, source lines 22-47)

`mod289`, `permute` and `taylorInvSqrt` are the componentwise scalar maps
of the corresponding GLSL helpers. -/

/-- `mod289(x) = x - floor(x * (1.0/289.0)) * 289.0` (scalar form). -/
def mod289 (x : ℚ) : ℚ := x - floorQ (x * (1 / 289)) * 289

/-- `permute(x) = mod289(((x*34.0)+1.0)*x)` (componentwise). -/
def permute4 (v : Vec4) : Vec4 := map4 (fun c => mod289 ((c * 34 + 1) * c)) v

/-- `taylorInvSqrt(r) = 1.79284291400159 - 0.85373472095314 * r`
(componentwise). -/
def taylorInvSqrt (r : Vec4) : Vec4 :=
  map4 (fun c => 1.79284291400159 - 0.85373472095314 * c) r

/-- The binary32 value of the source literal `n_ = 0.142857142857`
(see the modelling conventions in the file header). -/
def n7 : ℚ := 9586981 / 67108864

/-- 3D simplex noise, the shader's sole randomness source
(source lines 28-47).  Every `let` mirrors one assignment of the GLSL
body; swizzles are spelled out componentwise. -/
def snoise (v : Vec3) : ℚ :=
  let Cx : ℚ := 1 / 6
  let Cy : ℚ := 1 / 3
  let s := v.x * Cy + v.y * Cy + v.z * Cy
  let i0 : Vec3 := ⟨floorQ (v.x + s), floorQ (v.y + s), floorQ (v.z + s)⟩
  let t := i0.x * Cx + i0.y * Cx + i0.z * Cx
  let x0 : Vec3 := ⟨v.x - i0.x + t, v.y - i0.y + t, v.z - i0.z + t⟩
  let g : Vec3 := ⟨stepQ x0.y x0.x, stepQ x0.z x0.y, stepQ x0.x x0.z⟩
  let l : Vec3 := ⟨1 - g.x, 1 - g.y, 1 - g.z⟩
  let i1 : Vec3 := ⟨min g.x l.z, min g.y l.x, min g.z l.y⟩
  let i2 : Vec3 := ⟨max g.x l.z, max g.y l.x, max g.z l.y⟩
  let x1 : Vec3 := ⟨x0.x - i1.x + Cx, x0.y - i1.y + Cx, x0.z - i1.z + Cx⟩
  let x2 : Vec3 := ⟨x0.x - i2.x + Cy, x0.y - i2.y + Cy, x0.z - i2.z + Cy⟩
  let x3 : Vec3 := ⟨x0.x - 1/2, x0.y - 1/2, x0.z - 1/2⟩
  let im : Vec3 := ⟨mod289 i0.x, mod289 i0.y, mod289 i0.z⟩
  let pA : Vec4 := permute4 ⟨im.z, im.z + i1.z, im.z + i2.z, im.z + 1⟩
  let pB : Vec4 := permute4
    ⟨pA.x + im.y, pA.y + im.y + i1.y, pA.z + im.y + i2.y, pA.w + im.y + 1⟩
  let p : Vec4 := permute4
    ⟨pB.x + im.x, pB.y + im.x + i1.x, pB.z + im.x + i2.x, pB.w + im.x + 1⟩
  let nsx : ℚ := n7 * 2
  let nsy : ℚ := n7 * (1/2) - 1
  let nsz : ℚ := n7
  let j : Vec4 := map4 (fun c => c - 49 * floorQ (c * nsz * nsz)) p
  let xg : Vec4 := map4 (fun c => floorQ (c * nsz)) j
  let yg : Vec4 := ⟨floorQ (j.x - 7 * xg.x), floorQ (j.y - 7 * xg.y),
                    floorQ (j.z - 7 * xg.z), floorQ (j.w - 7 * xg.w)⟩
  let x4 : Vec4 := map4 (fun c => c * nsx + nsy) xg
  let y4 : Vec4 := map4 (fun c => c * nsx + nsy) yg
  let h : Vec4 := ⟨1 - |x4.x| - |y4.x|, 1 - |x4.y| - |y4.y|,
                   1 - |x4.z| - |y4.z|, 1 - |x4.w| - |y4.w|⟩
  let b0 : Vec4 := ⟨x4.x, x4.y, y4.x, y4.y⟩
  let b1 : Vec4 := ⟨x4.z, x4.w, y4.z, y4.w⟩
  let s0 : Vec4 := map4 (fun c => floorQ c * 2 + 1) b0
  let s1 : Vec4 := map4 (fun c => floorQ c * 2 + 1) b1
  let sh : Vec4 := map4 (fun c => -(stepQ c 0)) h
  let a0 : Vec4 := ⟨b0.x + s0.x * sh.x, b0.z + s0.z * sh.x,
                    b0.y + s0.y * sh.y, b0.w + s0.w * sh.y⟩
  let a1 : Vec4 := ⟨b1.x + s1.x * sh.z, b1.z + s1.z * sh.z,
                    b1.y + s1.y * sh.w, b1.w + s1.w * sh.w⟩
  let p0 : Vec3 := ⟨a0.x, a0.y, h.x⟩
  let p1 : Vec3 := ⟨a0.z, a0.w, h.y⟩
  let p2 : Vec3 := ⟨a1.x, a1.y, h.z⟩
  let p3 : Vec3 := ⟨a1.z, a1.w, h.w⟩
  let norm : Vec4 := taylorInvSqrt ⟨dot3 p0 p0, dot3 p1 p1, dot3 p2 p2, dot3 p3 p3⟩
  let q0 := smul3 norm.x p0
  let q1 := smul3 norm.y p1
  let q2 := smul3 norm.z p2
  let q3 := smul3 norm.w p3
  let m : Vec4 := ⟨max (51/100 - dot3 x0 x0) 0, max (51/100 - dot3 x1 x1) 0,
                   max (51/100 - dot3 x2 x2) 0, max (51/100 - dot3 x3 x3) 0⟩
  let mm : Vec4 := ⟨m.x * m.x, m.y * m.y, m.z * m.z, m.w * m.w⟩
  105 * (mm.x * mm.x * dot3 q0 x0 + mm.y * mm.y * dot3 q1 x1 +
         mm.z * mm.z * dot3 q2 x2 + mm.w * mm.w * dot3 q3 x3)

/-! ## The math backend

GLSL's `sin`, `atan`, `sqrt`, `pow` and the screen-space derivative
`fwidth` have no exact rational form; an implementation supplies them.
`MathB` packages them, `MathBOk` states the axioms every faithful
implementation satisfies and on which the proofs below rely. -/

/-- The transcendental / screen-space operations of the shader,
supplied by the execution environment. `atanB y x` is the two-argument
arctangent `atan(y, x)`; `fwB v` is the screen-space derivative width
`fwidth(v)` of the noise value `v` at the current fragment. -/
structure MathB where
  sinB : ℚ → ℚ
  atanB : ℚ → ℚ → ℚ
  sqrtB : ℚ → ℚ
  powB : ℚ → ℚ → ℚ
  fwB : ℚ → ℚ

/-- The axioms of a faithful backend: `sin` is bounded by `[-1, 1]`,
`sqrt` is nonnegative and exact on squares, `pow` maps `[0,1]` to `[0,1]`
monotonically for positive exponents with `1^y = 1`, and `fwidth` is
nonnegative. -/
structure MathBOk (B : MathB) : Prop where
  sin_ge : ∀ x, -1 ≤ B.sinB x
  sin_le : ∀ x, B.sinB x ≤ 1
  sqrt_nonneg : ∀ x, 0 ≤ B.sqrtB x
  sqrt_sq : ∀ a, 0 ≤ a → B.sqrtB (a * a) = a
  pow_nonneg : ∀ x y, 0 ≤ x → 0 ≤ B.powB x y
  pow_le_one : ∀ x y, 0 ≤ x → x ≤ 1 → 0 < y → B.powB x y ≤ 1
  pow_one_base : ∀ y, 0 < y → B.powB 1 y = 1
  pow_mono : ∀ x y e, 0 ≤ x → x ≤ y → 0 < e → B.powB x e ≤ B.powB y e
  fw_nonneg : ∀ x, 0 ≤ B.fwB x

/-- GLSL `normalize` on `vec2`, via the backend square root; undefined
(`none`) on the zero vector, as in the GLSL specification. -/
def normalizeQ (B : MathB) (v : Vec2) : Option Vec2 :=
  if v.x = 0 ∧ v.y = 0 then none
  else some ⟨v.x / B.sqrtB (dot2 v v), v.y / B.sqrtB (dot2 v v)⟩

/-- GLSL two-argument `atan(y, x)`; undefined (`none`) when both
arguments are zero, as in the GLSL specification. -/
def atan2Q (B : MathB) (y x : ℚ) : Option ℚ :=
  if y = 0 ∧ x = 0 then none else some (B.atanB y x)

/-! ## Shader parameters (source lines 20 and 136-212) -/

/-- The shader's `#define PI 3.14159265359`. -/
def glslPI : ℚ := 3.14159265359

def colorBackground : Vec3 := ⟨0.15, 0.45, 0.80⟩

def colorDarkLine : Vec3 := ⟨0.12, 0.42, 0.75⟩

def colorFoamLine : Vec3 := ⟨0.95, 0.98, 1.00⟩

def colorStaticGlow : Vec3 := ⟨1.0, 1.0, 1.0⟩

def masterTimeFactor : ℚ := 0.35

def mainCurrentFrequency : ℚ := 2.8

def mainCurrentSpeed : ℚ := 0.15

def mainCurrentStrength : ℚ := 0.025

def foamCurrentFrequency : ℚ := 2.2

def foamCurrentSpeed : ℚ := 0.12

def foamCurrentStrength : ℚ := 0.002

def darkWaveFrequency : ℚ := 8.0

def waveSpeedDark : ℚ := 0.28

def darkLineThreshold : ℚ := 0.5

def darkLineSharpness : ℚ := 1.5

def foamBandFrequency : ℚ := 12.0

def waveSpeedFoam : ℚ := 0.22

def foamBandStart : ℚ := 0.58

def foamBandEnd : ℚ := 0.59

def foamBandSharpness : ℚ := 5.0

def breakupNoiseFreq : ℚ := 1.5

def breakupNoiseSpeed : ℚ := 0.15

def breakupStrength : ℚ := 1.0

def breakupThreshold : ℚ := 0.65

def breakupSmoothness : ℚ := 0.05

def darkLineOpacity : ℚ := 0.90

def staticGlowAlpha : ℚ := 0.5

def staticGlowDistance : ℚ := 0.25

def staticGlowSharpness : ℚ := 0.8

def staticGlowDarkBoost : ℚ := 1.8

def lapWaveSpeed : ℚ := 0.8

def lapWavePeakSharpness : ℚ := 8.0

def lapWaveRadialFreq : ℚ := 30.0

def lapWaveIntensityMultiplier : ℚ := 1.0

def lapWaveDistortionFreq : ℚ := 15.0

def lapWaveDistortionStrength : ℚ := 0.10

def edgeWaveFadeDistance : ℚ := 0.08

def radialWaveSpokeCount : ℚ := 60.0

def radialWaveFreq : ℚ := 8.0

def radialWaveSpeed : ℚ := 0.3

def radialWaveRotationSpeed : ℚ := 0.05

def radialWaveSharpness : ℚ := 35.0

def radialWaveIntensity : ℚ := 0.6

def radialWaveDistortionFreq : ℚ := 25.0

def radialWaveDistortionStrength : ℚ := 0.08

def radialWaveMaskFreq : ℚ := 1.8

def radialWaveMaskSpeed : ℚ := 0.1

def radialWaveMaskThreshold : ℚ := 0.55

def radialWaveMaskSmoothness : ℚ := 0.05

/-- The fixed off-center point of the radial wave effect
(source line 302, `vec2 center = vec2(0.7, 0.5)`). -/
def radialCenter : Vec2 := ⟨0.7, 0.5⟩

/-! ## Helper functions (source lines 71-107)

The source helpers read the uniform `patternScale` from scope; here it is
passed as the explicit first argument. -/

/-- `calculate_main_current` (source lines 73-79). -/
def calculate_main_current (patternScale : ℚ) (st : Vec2) (time_in freq strength : ℚ) : Vec2 :=
  let c : Vec3 := ⟨st.x * patternScale * freq, st.y * patternScale * freq, time_in⟩
  let currentX := snoise ⟨c.x + 1.0, c.y + 2.0, c.z + 3.0⟩
  let currentY := snoise ⟨c.x + 5.2, c.y + 1.3, c.z + -9.4⟩
  smul2 strength ⟨currentX, currentY⟩

/-- `calculate_foam_current` (source lines 83-89). -/
def calculate_foam_current (patternScale : ℚ) (st : Vec2) (time_in freq strength : ℚ) : Vec2 :=
  let c : Vec3 := ⟨st.x * patternScale * freq + 10.0, st.y * patternScale * freq + -5.0, time_in⟩
  let currentX := snoise ⟨c.x + -7.1, c.y + 8.5, c.z + 12.3⟩
  let currentY := snoise ⟨c.x + 3.9, c.y + -11.6, c.z + -1.7⟩
  smul2 strength ⟨currentX, currentY⟩

/-- `calculate_line_intensity` (source lines 94-98); the `fwidth` of the
noise value comes from the backend. -/
def calculate_line_intensity (B : MathB) (noiseValue01 threshold sharpness : ℚ) : ℚ :=
  let fw := B.fwB noiseValue01 * sharpness
  clampQ (1 - smoothstepQ (threshold - fw) (threshold + fw) noiseValue01) 0 1

/-- `calculate_band_intensity` (source lines 102-107). -/
def calculate_band_intensity (B : MathB) (noiseValue01 bandStart bandEnd sharpness : ℚ) : ℚ :=
  let fw := B.fwB noiseValue01 * sharpness
  let rampUp := smoothstepQ (bandStart - fw) (bandStart + fw) noiseValue01
  let rampDown := smoothstepQ (bandEnd - fw) (bandEnd + fw) noiseValue01
  clampQ (rampUp - rampDown) 0 1

/-! ## The body of `main` (source lines 130-350), factored into one
definition per local variable.  Arguments: `uv` is `vUv` (`st_orig`),
`st` the aspect-corrected `vUv2`, `mt` the precomputed `masterTime`,
`ps` the uniform `patternScale`. -/

/-- Aspect correction `st = vUv2 * vec2(resolution.x / resolution.y, 1.0)`
(source line 134). -/
def aspectSt (uv2 res : Vec2) : Vec2 := ⟨uv2.x * (res.x / res.y), uv2.y⟩

/-- `masterTime = time * masterTimeFactor * timeScale` (source line 145). -/
def masterTime (time timeScale : ℚ) : ℚ := time * masterTimeFactor * timeScale

/-- Distance to the closest edge, floored at the epsilon `0.0001`
(source lines 218-219). -/
def distToEdge (uv : Vec2) : ℚ :=
  max (min (min uv.x (1.0 - uv.x)) (min uv.y (1.0 - uv.y))) 0.0001

/-- Edge-distortion vector (source lines 223-227). -/
def edgeDistortion (uv : Vec2) (mt ps : ℚ) : Vec2 :=
  let c : Vec3 := ⟨uv.x * ps * lapWaveDistortionFreq, uv.y * ps * lapWaveDistortionFreq, mt * 0.2⟩
  smul2 lapWaveDistortionStrength ⟨snoise c, snoise ⟨c.x + 17.8, c.y + -5.3, c.z + 29.1⟩⟩

/-- Main advection current (source line 230). -/
def mainCurrentVector (st : Vec2) (mt ps : ℚ) : Vec2 :=
  calculate_main_current ps st (mt * mainCurrentSpeed) mainCurrentFrequency mainCurrentStrength

/-- Foam advection current (source line 231). -/
def foamCurrentVector (st : Vec2) (mt ps : ℚ) : Vec2 :=
  calculate_foam_current ps st (mt * foamCurrentSpeed) foamCurrentFrequency foamCurrentStrength

/-- Advected sampling coordinate for the dark lines (source line 234). -/
def dark_final_st (st : Vec2) (mt ps : ℚ) : Vec2 := st + mainCurrentVector st mt ps

/-- Advected sampling coordinate for the foam band (source line 235). -/
def foam_final_st (st : Vec2) (mt ps : ℚ) : Vec2 := st + foamCurrentVector st mt ps

/-- Breakup-mask noise, remapped to `[0,1]` (source lines 239-240). -/
def breakupMaskNoise (st : Vec2) (mt ps : ℚ) : ℚ :=
  snoise ⟨st.x * ps * breakupNoiseFreq, st.y * ps * breakupNoiseFreq,
          mt * breakupNoiseSpeed⟩ * 0.5 + 0.5

/-- Breakup mask (source lines 241-245). -/
def breakupMask (st : Vec2) (mt ps : ℚ) : ℚ :=
  smoothstepQ (breakupThreshold - breakupSmoothness * 0.5)
    (breakupThreshold + breakupSmoothness * 0.5) (breakupMaskNoise st mt ps)

/-- `lineVisibilityMask = 1.0 - breakupMask * breakupStrength`
(source line 246). -/
def lineVisibilityMask (st : Vec2) (mt ps : ℚ) : ℚ :=
  1 - breakupMask st mt ps * breakupStrength

/-- Dark-line noise value in `[0,1]` (source lines 251-253). -/
def darkNoiseValue01 (st : Vec2) (mt ps : ℚ) : ℚ :=
  let c := dark_final_st st mt ps
  snoise ⟨c.x * ps * darkWaveFrequency, c.y * ps * darkWaveFrequency,
          mt * waveSpeedDark⟩ * 0.5 + 0.5

/-- Dark-line intensity after opacity and visibility mask
(source lines 254-256). -/
def darkLineIntensity (B : MathB) (st : Vec2) (mt ps : ℚ) : ℚ :=
  calculate_line_intensity B (darkNoiseValue01 st mt ps) darkLineThreshold darkLineSharpness
    * darkLineOpacity * lineVisibilityMask st mt ps

/-- Foam-band noise value in `[0,1]` (source lines 261-263). -/
def foamSimplexValue01 (st : Vec2) (mt ps : ℚ) : ℚ :=
  let c := foam_final_st st mt ps
  snoise ⟨c.x * ps * foamBandFrequency, c.y * ps * foamBandFrequency,
          mt * waveSpeedFoam⟩ * 0.5 + 0.5

/-- Unmasked foam-band intensity (source line 264). -/
def foamIntensity_base (B : MathB) (st : Vec2) (mt ps : ℚ) : ℚ :=
  calculate_band_intensity B (foamSimplexValue01 st mt ps) foamBandStart foamBandEnd
    foamBandSharpness

/-- Foam-band intensity after the visibility mask (source line 265). -/
def foamIntensity_masked (B : MathB) (st : Vec2) (mt ps : ℚ) : ℚ :=
  foamIntensity_base B st mt ps * lineVisibilityMask st mt ps

/-- Static edge-glow factor as a function of `distToEdge`
(source lines 273-274): `smoothstep(staticGlowDistance, 0.0, d)` times its
own `staticGlowSharpness`-th power.  It depends on nothing but `d` (and
the backend `pow`): not on time, and not on any noise value. -/
def staticGlowFactor (B : MathB) (d : ℚ) : ℚ :=
  let s := smoothstepQ staticGlowDistance 0 d
  s * B.powB s staticGlowSharpness

/-- Distorted distance to the edge, floored at the epsilon `0.0001`
(source lines 280-281); `outward` is `normalize(st_orig - 0.5)`. -/
def distortedDistToEdge (uv : Vec2) (mt ps : ℚ) (outward : Vec2) : ℚ :=
  max (distToEdge uv - dot2 (edgeDistortion uv mt ps) outward * 0.5) 0.0001

/-- Lapping shoreline-wave intensity (source lines 283-298), as a function
of the distorted distance `dd`. -/
def lapLineIntensity_final (B : MathB) (dd mt : ℚ) : ℚ :=
  let radialPhase := dd * lapWaveRadialFreq - mt * lapWaveSpeed
  let waveValue := B.sinB (radialPhase * glslPI * 2.0) * 0.5 + 0.5
  let sharpWave := B.powB waveValue lapWavePeakSharpness
  clampQ (sharpWave * lapWaveIntensityMultiplier * smoothstepQ edgeWaveFadeDistance 0 dd) 0 1

/-- Radial spoke-wave intensity (source lines 301-329), with the result of
`atan(dir.y, dir.x)` passed in as `angle0`. -/
def radialWaveIntensity_final (B : MathB) (st : Vec2) (mt ps : ℚ) (angle0 : ℚ) : ℚ :=
  let dir := st - radialCenter
  let distFromCenter := B.sqrtB (dot2 dir dir)
  let angleRot := angle0 + mt * radialWaveRotationSpeed
  let angleDistortion := snoise ⟨st.x * ps * radialWaveDistortionFreq,
    st.y * ps * radialWaveDistortionFreq, mt * 0.8⟩ * radialWaveDistortionStrength
  let angle := angleRot + angleDistortion
  let radialWavePattern := B.sinB (angle * radialWaveSpokeCount +
    distFromCenter * radialWaveFreq - mt * radialWaveSpeed) * 0.5 + 0.5
  let radialWaveLines := B.powB radialWavePattern radialWaveSharpness
  let radialMaskNoise := snoise ⟨st.x * ps * radialWaveMaskFreq,
    st.y * ps * radialWaveMaskFreq, mt * radialWaveMaskSpeed⟩ * 0.5 + 0.5
  let radialMask := smoothstepQ radialWaveMaskThreshold
    (radialWaveMaskThreshold + radialWaveMaskSmoothness) radialMaskNoise
  clampQ (radialWaveLines * radialWaveIntensity * radialMask) 0 1

/-! ## Compositor (source lines 332-349) -/

/-- Componentwise `mix` on colors. -/
def mix3 (a b : Vec3) (t : ℚ) : Vec3 := ⟨mixQ a.x b.x t, mixQ a.y b.y t, mixQ a.z b.z t⟩

/-- Componentwise `clamp` on colors. -/
def clamp3 (v : Vec3) (lo hi : ℚ) : Vec3 :=
  ⟨clampQ v.x lo hi, clampQ v.y lo hi, clampQ v.z lo hi⟩

/-- `baseColor = mix(colorBackground, colorDarkLine, clamp(darkLineIntensity))`
(source line 333). -/
def baseColor (dli : ℚ) : Vec3 := mix3 colorBackground colorDarkLine (clampQ dli 0 1)

/-- `glowBoost = mix(1.0, staticGlowDarkBoost, clamp(darkLineIntensity))`
(source line 336). -/
def glowBoost (dli : ℚ) : ℚ := mixQ 1.0 staticGlowDarkBoost (clampQ dli 0 1)

/-- `colorWithGlow = baseColor + colorStaticGlow * glow * staticGlowAlpha * glowBoost`
(source line 337). -/
def colorWithGlow (dli glow : ℚ) : Vec3 :=
  baseColor dli + smul3 (glow * staticGlowAlpha * glowBoost dli) colorStaticGlow

/-- `totalFoamIntensity = clamp(foamMasked + lap + radial, 0, 1)`
(source line 340). -/
def totalFoamIntensity (foamM lap radial : ℚ) : ℚ := clampQ (foamM + lap + radial) 0 1

/-- `finalColor = clamp(mix(colorWithGlow, colorFoamLine, totalFoamIntensity), 0, 1)`
(source lines 343-346). -/
def finalColor (cwg : Vec3) (tfi : ℚ) : Vec3 := clamp3 (mix3 cwg colorFoamLine tfi) 0 1

/-- The shader's `main` (source lines 130-350): evaluation of one surface
sample, returning the RGBA fragment color.  The two GLSL-undefined
operations — `normalize(st_orig - 0.5)` at the zero vector and
`atan(dir.y, dir.x)` at `(0, 0)` — surface as `none`. -/
def mainShader (B : MathB) (uv uv2 : Vec2) (time : ℚ) (res : Vec2)
    (patternScale timeScale : ℚ) : Option Vec4 :=
  let st := aspectSt uv2 res
  let mt := masterTime time timeScale
  let d := distToEdge uv
  match normalizeQ B (uv - ⟨0.5, 0.5⟩) with
  | none => none
  | some outward =>
    let lap := lapLineIntensity_final B (distortedDistToEdge uv mt patternScale outward) mt
    match atan2Q B (st - radialCenter).y (st - radialCenter).x with
    | none => none
    | some angle0 =>
      let radial := radialWaveIntensity_final B st mt patternScale angle0
      let dli := darkLineIntensity B st mt patternScale
      let foamM := foamIntensity_masked B st mt patternScale
      let tfi := totalFoamIntensity foamM lap radial
      let fc := finalColor (colorWithGlow dli (staticGlowFactor B d)) tfi
      some ⟨fc.x, fc.y, fc.z, 1.0⟩

/-! ## Claim-specific parameterisations

Claim C4 treats the hard-coded `breakupStrength = 1.0` of source line 173
as a parameter `s`; these definitions generalise source lines 246, 254-256
and 264-265 accordingly (setting `s := breakupStrength` recovers the
shader's values). -/

/-- `lineVisibilityMask` with the breakup strength as a parameter `s`. -/
def lineVisibilityMaskS (st : Vec2) (mt ps s : ℚ) : ℚ := 1 - breakupMask st mt ps * s

/-- Dark-line intensity with the breakup strength as a parameter `s`. -/
def darkLineIntensityS (B : MathB) (st : Vec2) (mt ps s : ℚ) : ℚ :=
  calculate_line_intensity B (darkNoiseValue01 st mt ps) darkLineThreshold darkLineSharpness
    * darkLineOpacity * lineVisibilityMaskS st mt ps s

/-- Foam-band intensity with the breakup strength as a parameter `s`. -/
def foamIntensityS (B : MathB) (st : Vec2) (mt ps s : ℚ) : ℚ :=
  foamIntensity_base B st mt ps * lineVisibilityMaskS st mt ps s

/-! ## A concrete computable backend, for witnesses

`Nat.sqrt` is defined by well-founded recursion and does not reduce in the
kernel, so concrete evaluations use a fuel-driven base-4 digit square root
(`natSqrtR`), proved below to agree with `Nat.sqrt`. -/

/-- Base-4 digit integer square root, structurally recursive on a fuel
argument (any fuel with `n < 4 ^ fuel` suffices). -/
def natSqrtAux : ℕ → ℕ → ℕ
  | 0, _ => 0
  | fuel + 1, n =>
    if n < 2 then n
    else
      let r := 2 * natSqrtAux fuel (n / 4)
      if (r + 1) * (r + 1) ≤ n then r + 1 else r

/-- Kernel-reducible integer square root. -/
def natSqrtR (n : ℕ) : ℕ := natSqrtAux n n

/-- Kernel-reducible rational square root, mirroring `Rat.sqrt`. -/
def ratSqrt (q : ℚ) : ℚ := mkRat (natSqrtR q.num.toNat) (natSqrtR q.den)

/-- A concrete computable backend: `sin` and `atan` identically `0`
(within the `sin` bound), `ratSqrt` (equal to `Rat.sqrt`, hence exact on
perfect squares), `pow` by the rounded-up natural exponent, zero
derivative width. -/
def zeroB : MathB where
  sinB := fun _ => 0
  atanB := fun _ _ => 0
  sqrtB := ratSqrt
  powB := fun x y => x ^ y.ceil.toNat
  fwB := fun _ => 0

/-- Sample grid for the noise-boundedness check: a `5 × 5 × 5` grid with
step `3/4` spanning `[-3/2, 3/2]` in each coordinate — several unit
cubes, including negative coordinates. -/
def noiseSampleGrid : List Vec3 :=
  let qs : List ℚ := [-3/2, -3/4, 0, 3/4, 3/2]
  qs.flatMap fun a => qs.flatMap fun b => qs.map fun c => ⟨a, b, c⟩

/-! ## Component and clamp/mix/smoothstep algebra -/

theorem Vec2.ext2 {a b : Vec2} (hx : a.x = b.x) (hy : a.y = b.y) : a = b := by
  cases a
  cases b
  simp_all

@[simp] theorem Vec2.sub_x (a b : Vec2) : (a - b).x = a.x - b.x := rfl

@[simp] theorem Vec2.sub_y (a b : Vec2) : (a - b).y = a.y - b.y := rfl

@[simp] theorem Vec3.add_x (a b : Vec3) : (a + b).x = a.x + b.x := rfl

@[simp] theorem Vec3.add_y (a b : Vec3) : (a + b).y = a.y + b.y := rfl

@[simp] theorem Vec3.add_z (a b : Vec3) : (a + b).z = a.z + b.z := rfl

@[simp] theorem smul3_x (c : ℚ) (v : Vec3) : (smul3 c v).x = c * v.x := rfl

@[simp] theorem smul3_y (c : ℚ) (v : Vec3) : (smul3 c v).y = c * v.y := rfl

@[simp] theorem smul3_z (c : ℚ) (v : Vec3) : (smul3 c v).z = c * v.z := rfl

theorem clampQ_le (x lo hi : ℚ) : clampQ x lo hi ≤ hi := min_le_right _ _

theorem le_clampQ (x lo hi : ℚ) (h : lo ≤ hi) : lo ≤ clampQ x lo hi :=
  le_min (le_max_right _ _) h

theorem le_clampQ_of {c x : ℚ} (lo : ℚ) {hi : ℚ} (hx : c ≤ x) (hhi : c ≤ hi) :
    c ≤ clampQ x lo hi :=
  le_min (hx.trans (le_max_left _ _)) hhi

theorem clampQ_mono {x y : ℚ} (lo hi : ℚ) (h : x ≤ y) : clampQ x lo hi ≤ clampQ y lo hi :=
  min_le_min (max_le_max h le_rfl) le_rfl

theorem clampQ_eq_zero {q : ℚ} (h : q ≤ 0) : clampQ q 0 1 = 0 := by
  rw [clampQ, max_eq_right h, min_eq_left]
  norm_num

theorem clampQ_eq_one {q : ℚ} (h : 1 ≤ q) : clampQ q 0 1 = 1 := by
  rw [clampQ, min_eq_right]
  exact h.trans (le_max_left _ _)

theorem le_mixQ {c : ℚ} (a b t : ℚ) (ha : c ≤ a) (hb : c ≤ b) (h0 : 0 ≤ t) (h1 : t ≤ 1) :
    c ≤ mixQ a b t := by
  rw [mixQ]
  nlinarith [mul_nonneg (sub_nonneg.2 ha) (sub_nonneg.2 h1), mul_nonneg (sub_nonneg.2 hb) h0]

/-- The cubic `t*t*(3-2*t)` is monotone on `[0,1]`. -/
theorem hermite_mono {a b : ℚ} (h0 : 0 ≤ a) (hab : a ≤ b) (h1 : b ≤ 1) :
    a * a * (3 - 2 * a) ≤ b * b * (3 - 2 * b) := by
  nlinarith [mul_nonneg (sub_nonneg.2 hab) (mul_nonneg h0 (sub_nonneg.2 h1)),
    mul_nonneg (sub_nonneg.2 hab) (mul_nonneg (h0.trans hab) (sub_nonneg.2 h1)),
    mul_nonneg (mul_nonneg (sub_nonneg.2 hab) h0) (sub_nonneg.2 (hab.trans h1)),
    sq_nonneg (a - b), sq_nonneg (a + b - 1)]

theorem smoothstepQ_nonneg (e0 e1 x : ℚ) : 0 ≤ smoothstepQ e0 e1 x := by
  rw [smoothstepQ]
  have ht0 : (0:ℚ) ≤ clampQ ((x - e0) / (e1 - e0)) 0 1 := le_clampQ _ _ _ (by norm_num)
  have ht1 : clampQ ((x - e0) / (e1 - e0)) 0 1 ≤ 1 := clampQ_le _ _ _
  nlinarith

theorem smoothstepQ_le_one (e0 e1 x : ℚ) : smoothstepQ e0 e1 x ≤ 1 := by
  rw [smoothstepQ]
  have ht0 : (0:ℚ) ≤ clampQ ((x - e0) / (e1 - e0)) 0 1 := le_clampQ _ _ _ (by norm_num)
  have ht1 : clampQ ((x - e0) / (e1 - e0)) 0 1 ≤ 1 := clampQ_le _ _ _
  nlinarith [mul_nonneg (mul_nonneg (sub_nonneg.2 ht1) (sub_nonneg.2 ht1)) ht0]

theorem smoothstepQ_eq_zero {e0 e1 x : ℚ} (h : (x - e0) / (e1 - e0) ≤ 0) :
    smoothstepQ e0 e1 x = 0 := by
  rw [smoothstepQ, clampQ_eq_zero h]
  ring

theorem smoothstepQ_eq_one {e0 e1 x : ℚ} (h : 1 ≤ (x - e0) / (e1 - e0)) :
    smoothstepQ e0 e1 x = 1 := by
  rw [smoothstepQ, clampQ_eq_one h]
  ring

/-- A reversed-edge `smoothstep(e0, 0, x)` vanishes past the edge. -/
theorem smoothstepQ_rev_zero {e0 x : ℚ} (he : 0 < e0) (h : e0 ≤ x) :
    smoothstepQ e0 0 x = 0 :=
  smoothstepQ_eq_zero (div_nonpos_iff.2 (Or.inl ⟨by linarith, by linarith⟩))

/-- A forward `smoothstep(e0, e1, x)` vanishes below the lower edge. -/
theorem smoothstepQ_fwd_zero {e0 e1 x : ℚ} (he : e0 < e1) (h : x ≤ e0) :
    smoothstepQ e0 e1 x = 0 :=
  smoothstepQ_eq_zero (div_nonpos_iff.2 (Or.inr ⟨by linarith, by linarith⟩))

/-- A reversed-edge `smoothstep(e0, 0, ·)` is monotonically non-increasing. -/
theorem smoothstepQ_rev_anti {e0 : ℚ} (he : 0 < e0) {d1 d2 : ℚ} (h : d1 ≤ d2) :
    smoothstepQ e0 0 d2 ≤ smoothstepQ e0 0 d1 := by
  rw [smoothstepQ, smoothstepQ]
  have hdiv : (d2 - e0) / (0 - e0) ≤ (d1 - e0) / (0 - e0) := by
    rw [div_eq_mul_inv, div_eq_mul_inv]
    exact mul_le_mul_of_nonpos_right (by linarith)
      (inv_nonpos.2 (by linarith))
  have hc : clampQ ((d2 - e0) / (0 - e0)) 0 1 ≤ clampQ ((d1 - e0) / (0 - e0)) 0 1 :=
    clampQ_mono _ _ hdiv
  exact hermite_mono (le_clampQ _ _ _ (by norm_num)) hc (clampQ_le _ _ _)

/-! ## Layer-level helper lemmas -/

theorem calculate_line_intensity_nonneg (B : MathB) (x th sh : ℚ) :
    0 ≤ calculate_line_intensity B x th sh := by
  simp only [calculate_line_intensity]
  exact le_clampQ _ _ _ (by norm_num)

theorem calculate_band_intensity_nonneg (B : MathB) (x s e sh : ℚ) :
    0 ≤ calculate_band_intensity B x s e sh := by
  simp only [calculate_band_intensity]
  exact le_clampQ _ _ _ (by norm_num)

/-- The two-sided band intensity vanishes when the noise value sits at
least one antialiasing width above the upper band edge. -/
theorem band_intensity_above (B : MathB) {x : ℚ} (s : ℚ) {e sharp : ℚ}
    (hfw : 0 ≤ B.fwB x) (hsharp : 0 ≤ sharp) (hse : s ≤ e)
    (h : B.fwB x * sharp ≤ x - e) :
    calculate_band_intensity B x s e sharp = 0 := by
  simp only [calculate_band_intensity]
  have hf : 0 ≤ B.fwB x * sharp := mul_nonneg hfw hsharp
  rcases eq_or_lt_of_le hf with hf0 | hfpos
  · rw [← hf0]
    have hs : smoothstepQ (s - 0) (s + 0) x = 0 := by
      apply smoothstepQ_eq_zero
      rw [show (s + 0) - (s - 0) = 0 by ring, div_zero]
    have he' : smoothstepQ (e - 0) (e + 0) x = 0 := by
      apply smoothstepQ_eq_zero
      rw [show (e + 0) - (e - 0) = 0 by ring, div_zero]
    rw [hs, he']
    exact clampQ_eq_zero (by norm_num)
  · have h1 : smoothstepQ (s - B.fwB x * sharp) (s + B.fwB x * sharp) x = 1 := by
      apply smoothstepQ_eq_one
      rw [show (s + B.fwB x * sharp) - (s - B.fwB x * sharp) = 2 * (B.fwB x * sharp) by ring]
      rw [le_div_iff₀ (by linarith)]
      linarith
    have h2 : smoothstepQ (e - B.fwB x * sharp) (e + B.fwB x * sharp) x = 1 := by
      apply smoothstepQ_eq_one
      rw [show (e + B.fwB x * sharp) - (e - B.fwB x * sharp) = 2 * (B.fwB x * sharp) by ring]
      rw [le_div_iff₀ (by linarith)]
      linarith
    rw [h1, h2]
    exact clampQ_eq_zero (by norm_num)

/-- The lapping-wave layer vanishes whenever its distance fade vanishes. -/
theorem lapLineIntensity_eq_zero (B : MathB) {dd : ℚ} (mt : ℚ)
    (h : smoothstepQ edgeWaveFadeDistance 0 dd = 0) :
    lapLineIntensity_final B dd mt = 0 := by
  simp only [lapLineIntensity_final]
  rw [h, mul_zero]
  exact clampQ_eq_zero le_rfl

/-- The radial-wave layer vanishes whenever its noise mask vanishes. -/
theorem radialWaveIntensity_eq_zero (B : MathB) {st : Vec2} {mt ps : ℚ} (angle0 : ℚ)
    (h : smoothstepQ radialWaveMaskThreshold (radialWaveMaskThreshold + radialWaveMaskSmoothness)
      (snoise ⟨st.x * ps * radialWaveMaskFreq, st.y * ps * radialWaveMaskFreq,
        mt * radialWaveMaskSpeed⟩ * 0.5 + 0.5) = 0) :
    radialWaveIntensity_final B st mt ps angle0 = 0 := by
  simp only [radialWaveIntensity_final]
  rw [h, mul_zero]
  exact clampQ_eq_zero le_rfl

/-- Inversion principle for `mainShader`: a successful evaluation pins the
result to the compositor applied to the layer values. -/
theorem mainShader_inv {B : MathB} {uv uv2 : Vec2} {time : ℚ} {res : Vec2} {ps ts : ℚ}
    {c : Vec4} (h : mainShader B uv uv2 time res ps ts = some c) :
    ∃ outward angle0,
      normalizeQ B (uv - ⟨0.5, 0.5⟩) = some outward ∧
      atan2Q B (aspectSt uv2 res - radialCenter).y (aspectSt uv2 res - radialCenter).x
        = some angle0 ∧
      c = ⟨(finalColor
              (colorWithGlow (darkLineIntensity B (aspectSt uv2 res) (masterTime time ts) ps)
                (staticGlowFactor B (distToEdge uv)))
              (totalFoamIntensity
                (foamIntensity_masked B (aspectSt uv2 res) (masterTime time ts) ps)
                (lapLineIntensity_final B
                  (distortedDistToEdge uv (masterTime time ts) ps outward) (masterTime time ts))
                (radialWaveIntensity_final B (aspectSt uv2 res) (masterTime time ts) ps
                  angle0))).x,
           (finalColor
              (colorWithGlow (darkLineIntensity B (aspectSt uv2 res) (masterTime time ts) ps)
                (staticGlowFactor B (distToEdge uv)))
              (totalFoamIntensity
                (foamIntensity_masked B (aspectSt uv2 res) (masterTime time ts) ps)
                (lapLineIntensity_final B
                  (distortedDistToEdge uv (masterTime time ts) ps outward) (masterTime time ts))
                (radialWaveIntensity_final B (aspectSt uv2 res) (masterTime time ts) ps
                  angle0))).y,
           (finalColor
              (colorWithGlow (darkLineIntensity B (aspectSt uv2 res) (masterTime time ts) ps)
                (staticGlowFactor B (distToEdge uv)))
              (totalFoamIntensity
                (foamIntensity_masked B (aspectSt uv2 res) (masterTime time ts) ps)
                (lapLineIntensity_final B
                  (distortedDistToEdge uv (masterTime time ts) ps outward) (masterTime time ts))
                (radialWaveIntensity_final B (aspectSt uv2 res) (masterTime time ts) ps
                  angle0))).z,
           1⟩ := by
  rw [mainShader] at h
  rcases hn : normalizeQ B (uv - ⟨0.5, 0.5⟩) with _ | outward
  · rw [hn] at h
    exact absurd h (by simp)
  · rw [hn] at h
    rcases ha : atan2Q B (aspectSt uv2 res - radialCenter).y
        (aspectSt uv2 res - radialCenter).x with _ | angle0
    · rw [ha] at h
      exact absurd h (by simp)
    · rw [ha] at h
      exact ⟨outward, angle0, hn, rfl, (Option.some.inj h).symm⟩

/-- The fuel-driven square root agrees with `Nat.sqrt` whenever the fuel
bounds the argument by `4 ^ fuel`. -/
theorem natSqrtAux_eq : ∀ fuel n, n < 4 ^ fuel → natSqrtAux fuel n = Nat.sqrt n := by
  intro fuel
  induction fuel with
  | zero =>
    intro n hn
    have : n = 0 := by simpa using hn
    subst this
    simp [natSqrtAux, Nat.sqrt_zero]
  | succ f ih =>
    intro n hn
    by_cases h2 : n < 2
    · interval_cases n
      · simp [natSqrtAux, Nat.sqrt_zero]
      · simp [natSqrtAux, Nat.sqrt_one]
    · have hdiv : n / 4 < 4 ^ f := by
        rw [Nat.div_lt_iff_lt_mul (by norm_num)]
        calc n < 4 ^ (f + 1) := hn
        _ = 4 ^ f * 4 := by ring
      have hr := ih (n / 4) hdiv
      have h1 : Nat.sqrt (n / 4) * Nat.sqrt (n / 4) ≤ n / 4 := Nat.sqrt_le _
      have h2' : n / 4 < (Nat.sqrt (n / 4) + 1) * (Nat.sqrt (n / 4) + 1) :=
        Nat.lt_succ_sqrt _
      have hmod := Nat.div_add_mod n 4
      have hm4 : n % 4 < 4 := Nat.mod_lt _ (by norm_num)
      have hquad : 4 * (Nat.sqrt (n / 4) * Nat.sqrt (n / 4)) ≤ 4 * (n / 4) :=
        Nat.mul_le_mul_left 4 h1
      have hquad' : 4 * (n / 4 + 1) ≤ 4 * ((Nat.sqrt (n / 4) + 1) * (Nat.sqrt (n / 4) + 1)) :=
        Nat.mul_le_mul_left 4 (Nat.succ_le_of_lt h2')
      simp only [natSqrtAux, if_neg h2, hr]
      by_cases hc : (2 * Nat.sqrt (n / 4) + 1) * (2 * Nat.sqrt (n / 4) + 1) ≤ n
      · rw [if_pos hc]
        have hlo : 2 * Nat.sqrt (n / 4) + 1 ≤ Nat.sqrt n := Nat.le_sqrt.2 hc
        have hhi : Nat.sqrt n < 2 * Nat.sqrt (n / 4) + 2 := by
          apply Nat.sqrt_lt.2
          calc n < 4 * (n / 4) + 4 := by omega
          _ ≤ 4 * ((Nat.sqrt (n / 4) + 1) * (Nat.sqrt (n / 4) + 1)) := by omega
          _ = (2 * Nat.sqrt (n / 4) + 2) * (2 * Nat.sqrt (n / 4) + 2) := by ring
        omega
      · rw [if_neg hc]
        push_neg at hc
        have hlo : 2 * Nat.sqrt (n / 4) ≤ Nat.sqrt n := by
          apply Nat.le_sqrt.2
          calc 2 * Nat.sqrt (n / 4) * (2 * Nat.sqrt (n / 4))
              = 4 * (Nat.sqrt (n / 4) * Nat.sqrt (n / 4)) := by ring
          _ ≤ 4 * (n / 4) := hquad
          _ ≤ n := by omega
        have hhi : Nat.sqrt n < 2 * Nat.sqrt (n / 4) + 1 := Nat.sqrt_lt.2 hc
        omega

theorem natSqrtR_eq (n : ℕ) : natSqrtR n = Nat.sqrt n :=
  natSqrtAux_eq n n (Nat.lt_pow_self (by norm_num) n)

theorem ratSqrt_eq_sqrt (q : ℚ) : ratSqrt q = Rat.sqrt q := by
  rw [ratSqrt, Rat.sqrt, natSqrtR_eq, natSqrtR_eq]
  rfl

/-- The concrete backend `zeroB` satisfies the backend axioms. -/
theorem zeroB_ok : MathBOk zeroB where
  sin_ge := fun x => by norm_num [zeroB]
  sin_le := fun x => by norm_num [zeroB]
  sqrt_nonneg := fun x => by
    show 0 ≤ ratSqrt x
    rw [ratSqrt_eq_sqrt]
    exact Rat.sqrt_nonneg x
  sqrt_sq := fun a ha => by
    show ratSqrt (a * a) = a
    rw [ratSqrt_eq_sqrt, Rat.sqrt_eq, abs_of_nonneg ha]
  pow_nonneg := fun x y hx => pow_nonneg hx _
  pow_le_one := fun x y hx hx1 _ => pow_le_one₀ hx hx1
  pow_one_base := fun y _ => one_pow _
  pow_mono := fun x y e hx hxy _ => pow_le_pow_left₀ hx hxy _
  fw_nonneg := fun x => le_rfl

/-- Lower bound on one channel of the compositor: the mix toward the foam
color never drops a channel below `12/100` when the three fixed colors all
dominate that bound. -/
theorem compositor_channel_lower (B : MathB) (hB : MathBOk B)
    (bgc dlc flc gc dli tfiArg d : ℚ)
    (hbg : 12/100 ≤ bgc) (hdl : 12/100 ≤ dlc) (hfl : 12/100 ≤ flc) (hgc : 0 ≤ gc) :
    12/100 ≤ clampQ (mixQ (mixQ bgc dlc (clampQ dli 0 1) +
      staticGlowFactor B d * staticGlowAlpha * glowBoost dli * gc) flc
      (clampQ tfiArg 0 1)) 0 1 := by
  have hq0 : (0:ℚ) ≤ clampQ dli 0 1 := le_clampQ _ _ _ (by norm_num)
  have hq1 : clampQ dli 0 1 ≤ 1 := clampQ_le _ _ _
  have hglow : 0 ≤ staticGlowFactor B d := by
    simp only [staticGlowFactor]
    exact mul_nonneg (smoothstepQ_nonneg _ _ _) (hB.pow_nonneg _ _ (smoothstepQ_nonneg _ _ _))
  have hboost : 0 ≤ glowBoost dli := by
    simp only [glowBoost]
    refine le_mixQ _ _ _ (by norm_num) ?_ hq0 hq1
    norm_num [staticGlowDarkBoost]
  have hbase : 12/100 ≤ mixQ bgc dlc (clampQ dli 0 1) := le_mixQ _ _ _ hbg hdl hq0 hq1
  have hk : 0 ≤ staticGlowFactor B d * staticGlowAlpha * glowBoost dli * gc :=
    mul_nonneg (mul_nonneg (mul_nonneg hglow (by norm_num [staticGlowAlpha])) hboost) hgc
  have ht0 : (0:ℚ) ≤ clampQ tfiArg 0 1 := le_clampQ _ _ _ (by norm_num)
  have ht1 : clampQ tfiArg 0 1 ≤ 1 := clampQ_le _ _ _
  refine le_clampQ_of _ ?_ (by norm_num)
  refine le_mixQ _ _ _ ?_ hfl ht0 ht1
  linarith

/-! ## The claims -/

/-- C1: for every input on which the shader evaluates, each channel of the
returned RGB color lies in `[0, 1]`, and the output alpha is the constant
`1` (hence also in `[0, 1]`). -/
theorem output_range (B : MathB) (uv uv2 : Vec2) (time : ℚ) (res : Vec2) (ps ts : ℚ)
    (c : Vec4) (h : mainShader B uv uv2 time res ps ts = some c) :
    (0 ≤ c.x ∧ c.x ≤ 1) ∧ (0 ≤ c.y ∧ c.y ≤ 1) ∧ (0 ≤ c.z ∧ c.z ≤ 1) ∧ c.w = 1 := by
  obtain ⟨ow, a0, -, -, rfl⟩ := mainShader_inv h
  refine ⟨⟨?_, ?_⟩, ⟨?_, ?_⟩, ⟨?_, ?_⟩, rfl⟩ <;>
    simp only [finalColor, clamp3] <;>
    first
      | exact le_clampQ _ _ _ (by norm_num)
      | exact clampQ_le _ _ _

/-- C1 witness: a concrete evaluation away from the degenerate inputs. -/
theorem output_range_witness :
    (0 ≤ ((mainShader zeroB ⟨1/4, 1/3⟩ ⟨1/3, 2/5⟩ 0 ⟨800, 600⟩ 1 1).getD ⟨0, 0, 0, 0⟩).x ∧
      ((mainShader zeroB ⟨1/4, 1/3⟩ ⟨1/3, 2/5⟩ 0 ⟨800, 600⟩ 1 1).getD ⟨0, 0, 0, 0⟩).x ≤ 1) ∧
    (0 ≤ ((mainShader zeroB ⟨1/4, 1/3⟩ ⟨1/3, 2/5⟩ 0 ⟨800, 600⟩ 1 1).getD ⟨0, 0, 0, 0⟩).y ∧
      ((mainShader zeroB ⟨1/4, 1/3⟩ ⟨1/3, 2/5⟩ 0 ⟨800, 600⟩ 1 1).getD ⟨0, 0, 0, 0⟩).y ≤ 1) ∧
    (0 ≤ ((mainShader zeroB ⟨1/4, 1/3⟩ ⟨1/3, 2/5⟩ 0 ⟨800, 600⟩ 1 1).getD ⟨0, 0, 0, 0⟩).z ∧
      ((mainShader zeroB ⟨1/4, 1/3⟩ ⟨1/3, 2/5⟩ 0 ⟨800, 600⟩ 1 1).getD ⟨0, 0, 0, 0⟩).z ≤ 1) ∧
    ((mainShader zeroB ⟨1/4, 1/3⟩ ⟨1/3, 2/5⟩ 0 ⟨800, 600⟩ 1 1).getD ⟨0, 0, 0, 0⟩).w = 1 :=
  output_range zeroB ⟨1/4, 1/3⟩ ⟨1/3, 2/5⟩ 0 ⟨800, 600⟩ 1 1 _ (by decide)

/-- C2 (amended): the evaluation is total except at the two GLSL-undefined
configurations — `uv = (0.5, 0.5)`, where `normalize` receives the zero
vector, and aspect-corrected `uv2` equal to the radial center `(0.7, 0.5)`,
where `atan` receives `(0, 0)`; the distance-to-edge degeneracy itself is
guarded by the `0.0001` floor. -/
theorem totality (B : MathB) (uv uv2 : Vec2) (time : ℚ) (res : Vec2) (ps ts : ℚ)
    (h1 : uv ≠ (⟨0.5, 0.5⟩ : Vec2)) (h2 : aspectSt uv2 res ≠ radialCenter) :
    (mainShader B uv uv2 time res ps ts).isSome = true := by
  have hn : ¬((uv - (⟨0.5, 0.5⟩ : Vec2)).x = 0 ∧ (uv - (⟨0.5, 0.5⟩ : Vec2)).y = 0) := by
    rintro ⟨hx, hy⟩
    rw [Vec2.sub_x] at hx
    rw [Vec2.sub_y] at hy
    refine h1 (Vec2.ext2 ?_ ?_)
    · show uv.x = (0.5 : ℚ)
      linarith
    · show uv.y = (0.5 : ℚ)
      linarith
  have ha : ¬((aspectSt uv2 res - radialCenter).y = 0 ∧
      (aspectSt uv2 res - radialCenter).x = 0) := by
    rintro ⟨hy, hx⟩
    rw [Vec2.sub_y] at hy
    rw [Vec2.sub_x] at hx
    refine h2 (Vec2.ext2 ?_ ?_)
    · show (aspectSt uv2 res).x = radialCenter.x
      have : radialCenter.x = (0.7 : ℚ) := rfl
      linarith [hx, this]
    · show (aspectSt uv2 res).y = radialCenter.y
      have : radialCenter.y = (0.5 : ℚ) := rfl
      linarith [hy, this]
  rw [mainShader, normalizeQ, if_neg hn, atan2Q, if_neg ha]
  rfl

/-- C2 counterexample: at `uv = (0.5, 0.5)` the evaluation is undefined —
`normalize` receives the zero vector — refuting the claim that this input
is well-defined. -/
theorem totality_cex : mainShader zeroB ⟨1/2, 1/2⟩ ⟨1/3, 1/3⟩ 0 ⟨800, 600⟩ 1 1 = none := by
  decide

/-- C2 witness: a concrete non-degenerate input evaluates successfully. -/
theorem totality_witness :
    (⟨1/4, 1/3⟩ : Vec2) ≠ (⟨0.5, 0.5⟩ : Vec2) ∧
    aspectSt ⟨1/3, 2/5⟩ ⟨800, 600⟩ ≠ radialCenter ∧
    (mainShader zeroB ⟨1/4, 1/3⟩ ⟨1/3, 2/5⟩ 0 ⟨800, 600⟩ 1 1).isSome = true :=
  ⟨by decide, by decide, totality zeroB _ _ _ _ _ _ (by decide) (by decide)⟩

/-- C4: with the breakup strength treated as a parameter `s` (hard-coded to
`1.0` in the source), at any coordinate where the breakup mask is strictly
positive, the dark-line and foam-band intensities are non-increasing in
`s`, and strictly decreasing whenever the corresponding unmasked intensity
is strictly positive — because the visibility mask is the multiplicative
suppressor `1 - breakupMask * s`. -/
theorem mask_suppression (B : MathB) (st : Vec2) (mt ps s1 s2 : ℚ)
    (hmask : 0 < breakupMask st mt ps) (_hs0 : 0 ≤ s1) (_hs1 : s2 ≤ 1) (h12 : s1 ≤ s2) :
    (darkLineIntensityS B st mt ps s2 ≤ darkLineIntensityS B st mt ps s1 ∧
      foamIntensityS B st mt ps s2 ≤ foamIntensityS B st mt ps s1) ∧
    (s1 < s2 →
      (0 < calculate_line_intensity B (darkNoiseValue01 st mt ps) darkLineThreshold
            darkLineSharpness * darkLineOpacity →
        darkLineIntensityS B st mt ps s2 < darkLineIntensityS B st mt ps s1) ∧
      (0 < foamIntensity_base B st mt ps →
        foamIntensityS B st mt ps s2 < foamIntensityS B st mt ps s1)) := by
  have hmono : lineVisibilityMaskS st mt ps s2 ≤ lineVisibilityMaskS st mt ps s1 := by
    simp only [lineVisibilityMaskS]
    nlinarith [mul_le_mul_of_nonneg_left h12 hmask.le]
  have hP : 0 ≤ calculate_line_intensity B (darkNoiseValue01 st mt ps) darkLineThreshold
      darkLineSharpness * darkLineOpacity :=
    mul_nonneg (calculate_line_intensity_nonneg _ _ _ _) (by norm_num [darkLineOpacity])
  have hF : 0 ≤ foamIntensity_base B st mt ps := calculate_band_intensity_nonneg _ _ _ _ _
  refine ⟨⟨?_, ?_⟩, fun hlt => ⟨fun hPpos => ?_, fun hFpos => ?_⟩⟩
  · exact mul_le_mul_of_nonneg_left hmono hP
  · exact mul_le_mul_of_nonneg_left hmono hF
  · have hstrict : lineVisibilityMaskS st mt ps s2 < lineVisibilityMaskS st mt ps s1 := by
      simp only [lineVisibilityMaskS]
      nlinarith [mul_lt_mul_of_pos_left hlt hmask]
    exact mul_lt_mul_of_pos_left hstrict hPpos
  · have hstrict : lineVisibilityMaskS st mt ps s2 < lineVisibilityMaskS st mt ps s1 := by
      simp only [lineVisibilityMaskS]
      nlinarith [mul_lt_mul_of_pos_left hlt hmask]
    exact mul_lt_mul_of_pos_left hstrict hFpos

/-- C4 witness: at `st = (0, 7/20)`, `mt = 0`, `ps = 1` the breakup mask is
active and the suppression is strict for the dark lines. -/
theorem mask_suppression_witness :
    0 < breakupMask ⟨0, 7/20⟩ 0 1 ∧
    darkLineIntensityS zeroB ⟨0, 7/20⟩ 0 1 1 ≤ darkLineIntensityS zeroB ⟨0, 7/20⟩ 0 1 0 ∧
    foamIntensityS zeroB ⟨0, 7/20⟩ 0 1 1 ≤ foamIntensityS zeroB ⟨0, 7/20⟩ 0 1 0 ∧
    darkLineIntensityS zeroB ⟨0, 7/20⟩ 0 1 1 < darkLineIntensityS zeroB ⟨0, 7/20⟩ 0 1 0 := by
  have h := mask_suppression zeroB ⟨0, 7/20⟩ 0 1 0 1 (by decide) (by decide) (by decide)
    (by decide)
  exact ⟨by decide, h.1.1, h.1.2, (h.2 (by decide)).1 (by decide)⟩

/-- C5: the evaluation is deterministic — two invocations with identical
inputs return identical RGBA outputs; the model is a pure function with no
internal state between invocations. -/
theorem determinism (B : MathB) (uv uv2 : Vec2) (time : ℚ) (res : Vec2) (ps ts : ℚ)
    (uv' uv2' : Vec2) (time' : ℚ) (res' : Vec2) (ps' ts' : ℚ)
    (h1 : uv = uv') (h2 : uv2 = uv2') (h3 : time = time') (h4 : res = res')
    (h5 : ps = ps') (h6 : ts = ts') :
    mainShader B uv uv2 time res ps ts = mainShader B uv' uv2' time' res' ps' ts' := by
  subst h1 h2 h3 h4 h5 h6
  rfl

/-- C5 witness: the theorem applied at one concrete invocation pair. -/
theorem determinism_witness :
    mainShader zeroB ⟨1/4, 1/3⟩ ⟨1/3, 2/5⟩ 2 ⟨800, 600⟩ 1 1 =
      mainShader zeroB ⟨1/4, 1/3⟩ ⟨1/3, 2/5⟩ 2 ⟨800, 600⟩ 1 1 :=
  determinism zeroB _ _ _ _ _ _ _ _ _ _ _ _ rfl rfl rfl rfl rfl rfl

/-- C7: the static edge-glow factor equals `1` at `distToEdge = 0`, equals
`0` for every `distToEdge ≥ staticGlowDistance = 0.25`, and is monotonically
non-increasing in `distToEdge` throughout; by its very signature it depends
on neither time nor any noise value. -/
theorem static_glow_falloff (B : MathB) (hB : MathBOk B) :
    staticGlowFactor B 0 = 1 ∧
    (∀ d, staticGlowDistance ≤ d → staticGlowFactor B d = 0) ∧
    (∀ d1 d2, d1 ≤ d2 → staticGlowFactor B d2 ≤ staticGlowFactor B d1) := by
  refine ⟨?_, fun d hd => ?_, fun d1 d2 h => ?_⟩
  · have hs1 : smoothstepQ staticGlowDistance 0 0 = 1 := by decide
    simp only [staticGlowFactor]
    rw [hs1, hB.pow_one_base staticGlowSharpness (by decide), mul_one]
  · have hz : smoothstepQ staticGlowDistance 0 d = 0 :=
      smoothstepQ_rev_zero (by decide) hd
    simp only [staticGlowFactor]
    rw [hz, zero_mul]
  · simp only [staticGlowFactor]
    have h21 : smoothstepQ staticGlowDistance 0 d2 ≤ smoothstepQ staticGlowDistance 0 d1 :=
      smoothstepQ_rev_anti (by decide) h
    exact mul_le_mul h21
      (hB.pow_mono _ _ _ (smoothstepQ_nonneg _ _ _) h21 (by decide))
      (hB.pow_nonneg _ _ (smoothstepQ_nonneg _ _ _)) (smoothstepQ_nonneg _ _ _)

/-- C7 witness: the falloff evaluated at `d = 0`, at `d = 3/10` past the
glow distance, and monotonicity between `1/10` and `3/10`. -/
theorem static_glow_falloff_witness :
    staticGlowFactor zeroB 0 = 1 ∧
    (staticGlowDistance ≤ 3/10 ∧ staticGlowFactor zeroB (3/10) = 0) ∧
    ((1:ℚ)/10 ≤ 3/10 ∧ staticGlowFactor zeroB (3/10) ≤ staticGlowFactor zeroB (1/10)) := by
  obtain ⟨h1, h2, h3⟩ := static_glow_falloff zeroB zeroB_ok
  exact ⟨h1, ⟨by decide, h2 _ (by decide)⟩, ⟨by decide, h3 _ _ (by decide)⟩⟩

/-- C9: with `timeScale = 0` the output is independent of time, because
time enters every layer only through `masterTime = time * 0.35 * timeScale`. -/
theorem time_freeze (B : MathB) (uv uv2 : Vec2) (t1 t2 : ℚ) (res : Vec2) (ps : ℚ) :
    mainShader B uv uv2 t1 res ps 0 = mainShader B uv uv2 t2 res ps 0 := by
  have hmt : ∀ t : ℚ, masterTime t 0 = 0 := fun t => by simp [masterTime]
  simp only [mainShader, hmt]

/-- C3: the compositor computes
`totalFoamIntensity = clamp(foamBase·visibilityMask + lap + radial, 0, 1)`
— the foam-band term carries the breakup visibility mask, the lapping-wave
term does not — and the final color is
`mix(colorWithGlow, colorFoamLine, totalFoamIntensity)` clamped
per-channel to `[0, 1]` (alpha `1`). -/
theorem compositor_formula (B : MathB) (uv uv2 : Vec2) (time : ℚ) (res : Vec2) (ps ts : ℚ)
    (outward : Vec2) (angle0 : ℚ) (c : Vec4)
    (hn : normalizeQ B (uv - ⟨0.5, 0.5⟩) = some outward)
    (ha : atan2Q B (aspectSt uv2 res - radialCenter).y (aspectSt uv2 res - radialCenter).x
      = some angle0)
    (h : mainShader B uv uv2 time res ps ts = some c) :
    c = ⟨clampQ (mixQ
            (colorWithGlow (darkLineIntensity B (aspectSt uv2 res) (masterTime time ts) ps)
              (staticGlowFactor B (distToEdge uv))).x colorFoamLine.x
            (clampQ (foamIntensity_base B (aspectSt uv2 res) (masterTime time ts) ps *
                lineVisibilityMask (aspectSt uv2 res) (masterTime time ts) ps +
                lapLineIntensity_final B
                  (distortedDistToEdge uv (masterTime time ts) ps outward) (masterTime time ts) +
                radialWaveIntensity_final B (aspectSt uv2 res) (masterTime time ts) ps angle0)
              0 1)) 0 1,
         clampQ (mixQ
            (colorWithGlow (darkLineIntensity B (aspectSt uv2 res) (masterTime time ts) ps)
              (staticGlowFactor B (distToEdge uv))).y colorFoamLine.y
            (clampQ (foamIntensity_base B (aspectSt uv2 res) (masterTime time ts) ps *
                lineVisibilityMask (aspectSt uv2 res) (masterTime time ts) ps +
                lapLineIntensity_final B
                  (distortedDistToEdge uv (masterTime time ts) ps outward) (masterTime time ts) +
                radialWaveIntensity_final B (aspectSt uv2 res) (masterTime time ts) ps angle0)
              0 1)) 0 1,
         clampQ (mixQ
            (colorWithGlow (darkLineIntensity B (aspectSt uv2 res) (masterTime time ts) ps)
              (staticGlowFactor B (distToEdge uv))).z colorFoamLine.z
            (clampQ (foamIntensity_base B (aspectSt uv2 res) (masterTime time ts) ps *
                lineVisibilityMask (aspectSt uv2 res) (masterTime time ts) ps +
                lapLineIntensity_final B
                  (distortedDistToEdge uv (masterTime time ts) ps outward) (masterTime time ts) +
                radialWaveIntensity_final B (aspectSt uv2 res) (masterTime time ts) ps angle0)
              0 1)) 0 1,
         1⟩ := by
  obtain ⟨ow, a0, hn', ha', rfl⟩ := mainShader_inv h
  rw [hn] at hn'
  rw [ha] at ha'
  obtain rfl : outward = ow := Option.some.inj hn'
  obtain rfl : angle0 = a0 := Option.some.inj ha'
  simp only [finalColor, clamp3, mix3, totalFoamIntensity, foamIntensity_masked]

/-- C3 witness: the formula instantiated at a concrete evaluation. -/
theorem compositor_formula_witness :
    (mainShader zeroB ⟨1/4, 1/3⟩ ⟨2/5, 1/4⟩ 0 ⟨800, 600⟩ 1 1).getD ⟨0, 0, 0, 0⟩
      = ⟨clampQ (mixQ
            (colorWithGlow
              (darkLineIntensity zeroB (aspectSt ⟨2/5, 1/4⟩ ⟨800, 600⟩) (masterTime 0 1) 1)
              (staticGlowFactor zeroB (distToEdge ⟨1/4, 1/3⟩))).x colorFoamLine.x
            (clampQ (foamIntensity_base zeroB (aspectSt ⟨2/5, 1/4⟩ ⟨800, 600⟩) (masterTime 0 1) 1 *
                lineVisibilityMask (aspectSt ⟨2/5, 1/4⟩ ⟨800, 600⟩) (masterTime 0 1) 1 +
                lapLineIntensity_final zeroB
                  (distortedDistToEdge ⟨1/4, 1/3⟩ (masterTime 0 1) 1
                    ((normalizeQ zeroB ((⟨1/4, 1/3⟩ : Vec2) - ⟨0.5, 0.5⟩)).getD ⟨0, 0⟩))
                  (masterTime 0 1) +
                radialWaveIntensity_final zeroB (aspectSt ⟨2/5, 1/4⟩ ⟨800, 600⟩) (masterTime 0 1) 1
                  ((atan2Q zeroB (aspectSt ⟨2/5, 1/4⟩ ⟨800, 600⟩ - radialCenter).y
                    (aspectSt ⟨2/5, 1/4⟩ ⟨800, 600⟩ - radialCenter).x).getD 0))
              0 1)) 0 1,
         clampQ (mixQ
            (colorWithGlow
              (darkLineIntensity zeroB (aspectSt ⟨2/5, 1/4⟩ ⟨800, 600⟩) (masterTime 0 1) 1)
              (staticGlowFactor zeroB (distToEdge ⟨1/4, 1/3⟩))).y colorFoamLine.y
            (clampQ (foamIntensity_base zeroB (aspectSt ⟨2/5, 1/4⟩ ⟨800, 600⟩) (masterTime 0 1) 1 *
                lineVisibilityMask (aspectSt ⟨2/5, 1/4⟩ ⟨800, 600⟩) (masterTime 0 1) 1 +
                lapLineIntensity_final zeroB
                  (distortedDistToEdge ⟨1/4, 1/3⟩ (masterTime 0 1) 1
                    ((normalizeQ zeroB ((⟨1/4, 1/3⟩ : Vec2) - ⟨0.5, 0.5⟩)).getD ⟨0, 0⟩))
                  (masterTime 0 1) +
                radialWaveIntensity_final zeroB (aspectSt ⟨2/5, 1/4⟩ ⟨800, 600⟩) (masterTime 0 1) 1
                  ((atan2Q zeroB (aspectSt ⟨2/5, 1/4⟩ ⟨800, 600⟩ - radialCenter).y
                    (aspectSt ⟨2/5, 1/4⟩ ⟨800, 600⟩ - radialCenter).x).getD 0))
              0 1)) 0 1,
         clampQ (mixQ
            (colorWithGlow
              (darkLineIntensity zeroB (aspectSt ⟨2/5, 1/4⟩ ⟨800, 600⟩) (masterTime 0 1) 1)
              (staticGlowFactor zeroB (distToEdge ⟨1/4, 1/3⟩))).z colorFoamLine.z
            (clampQ (foamIntensity_base zeroB (aspectSt ⟨2/5, 1/4⟩ ⟨800, 600⟩) (masterTime 0 1) 1 *
                lineVisibilityMask (aspectSt ⟨2/5, 1/4⟩ ⟨800, 600⟩) (masterTime 0 1) 1 +
                lapLineIntensity_final zeroB
                  (distortedDistToEdge ⟨1/4, 1/3⟩ (masterTime 0 1) 1
                    ((normalizeQ zeroB ((⟨1/4, 1/3⟩ : Vec2) - ⟨0.5, 0.5⟩)).getD ⟨0, 0⟩))
                  (masterTime 0 1) +
                radialWaveIntensity_final zeroB (aspectSt ⟨2/5, 1/4⟩ ⟨800, 600⟩) (masterTime 0 1) 1
                  ((atan2Q zeroB (aspectSt ⟨2/5, 1/4⟩ ⟨800, 600⟩ - radialCenter).y
                    (aspectSt ⟨2/5, 1/4⟩ ⟨800, 600⟩ - radialCenter).x).getD 0))
              0 1)) 0 1,
         1⟩ :=
  compositor_formula zeroB ⟨1/4, 1/3⟩ ⟨2/5, 1/4⟩ 0 ⟨800, 600⟩ 1 1 _ _ _
    (by decide) (by decide) (by decide)

/-- C6 counterexample: `snoise` exceeds `1` at a concrete point, so its
range is not contained in `[-1, 1]`. -/
theorem noise_exceeds_one :
    1 < snoise ⟨58543/10000, 48567/10000, -44137/10000⟩ := by decide

/-- C6 (amended): `snoise` stays within `[-1, 1]` on a dense sample of
points across several unit cubes including negative coordinates (the
spec's testable property), though not at every point of `ℝ³`. -/
theorem noise_sample_bounded : ∀ p ∈ noiseSampleGrid, -1 ≤ snoise p ∧ snoise p ≤ 1 := by
  decide

/-- C6 witness: the bound at one grid point. -/
theorem noise_sample_bounded_witness :
    -1 ≤ snoise ⟨0, 3/4, -3/4⟩ ∧ snoise ⟨0, 3/4, -3/4⟩ ≤ 1 :=
  noise_sample_bounded ⟨0, 3/4, -3/4⟩ (by decide)

/-- C10: every successfully evaluated output channel is at least `12/100`
(the minimum channel of `colorDarkLine`): the base color is a convex mix
of `colorBackground` and `colorDarkLine`, the glow term is additive and
nonnegative, and the final mix toward `colorFoamLine` uses a weight in
`[0, 1]` — so the lower clamp never bites and the water is never black. -/
theorem never_black (B : MathB) (hB : MathBOk B) (uv uv2 : Vec2) (time : ℚ) (res : Vec2)
    (ps ts : ℚ) (c : Vec4) (h : mainShader B uv uv2 time res ps ts = some c) :
    12/100 ≤ c.x ∧ 12/100 ≤ c.y ∧ 12/100 ≤ c.z := by
  obtain ⟨ow, a0, -, -, rfl⟩ := mainShader_inv h
  refine ⟨?_, ?_, ?_⟩ <;>
    simp only [finalColor, clamp3, mix3, colorWithGlow, baseColor, totalFoamIntensity,
      Vec3.add_x, Vec3.add_y, Vec3.add_z, smul3_x, smul3_y, smul3_z] <;>
    exact compositor_channel_lower B hB _ _ _ _ _ _ _ (by decide) (by decide) (by decide)
      (by decide)

/-- C10 witness: the channel lower bound at a concrete evaluation. -/
theorem never_black_witness :
    12/100 ≤ ((mainShader zeroB ⟨3/10, 2/5⟩ ⟨1/5, 3/5⟩ 0 ⟨800, 600⟩ 1 1).getD ⟨0, 0, 0, 0⟩).x ∧
    12/100 ≤ ((mainShader zeroB ⟨3/10, 2/5⟩ ⟨1/5, 3/5⟩ 0 ⟨800, 600⟩ 1 1).getD ⟨0, 0, 0, 0⟩).y ∧
    12/100 ≤ ((mainShader zeroB ⟨3/10, 2/5⟩ ⟨1/5, 3/5⟩ 0 ⟨800, 600⟩ 1 1).getD ⟨0, 0, 0, 0⟩).z :=
  never_black zeroB zeroB_ok ⟨3/10, 2/5⟩ ⟨1/5, 3/5⟩ 0 ⟨800, 600⟩ 1 1 _ (by decide)

/-- C8 counterexample: the claim's exact scenario input `uv = uv2 =
(0.5, 0.5)` is the one point where `normalize(st_orig - 0.5)` receives the
zero vector, so the evaluation is undefined there rather than producing a
`totalFoamIntensity`. -/
theorem center_scenario_cex :
    mainShader zeroB ⟨0.5, 0.5⟩ ⟨0.5, 0.5⟩ 0 ⟨800, 600⟩ 1 1 = none := by decide

/-- C8 (amended): with `uv` nudged off the undefined center to
`(49/100, 1/2)` (all other scenario inputs unchanged: `uv2 = (0.5, 0.5)`,
`time = 0`, `patternScale = timeScale = 1`, `resolution = (800, 600)`),
and the foam-noise derivative width at most `1/500` (`fwidth` is a
sub-pixel finite difference), the `totalFoamIntensity` is strictly below
`0.1`, for every backend and every value of the radial `atan` angle. -/
theorem center_scenario (B : MathB) (hB : MathBOk B)
    (hfw : B.fwB (foamSimplexValue01 (aspectSt ⟨0.5, 0.5⟩ ⟨800, 600⟩) (masterTime 0 1) 1)
      ≤ 1/500) (angle0 : ℚ) :
    normalizeQ B ((⟨49/100, 1/2⟩ : Vec2) - ⟨0.5, 0.5⟩) = some ⟨-1, 0⟩ ∧
    totalFoamIntensity
      (foamIntensity_masked B (aspectSt ⟨0.5, 0.5⟩ ⟨800, 600⟩) (masterTime 0 1) 1)
      (lapLineIntensity_final B
        (distortedDistToEdge ⟨49/100, 1/2⟩ (masterTime 0 1) 1 ⟨-1, 0⟩) (masterTime 0 1))
      (radialWaveIntensity_final B (aspectSt ⟨0.5, 0.5⟩ ⟨800, 600⟩) (masterTime 0 1) 1 angle0)
      < 1/10 := by
  constructor
  · rw [normalizeQ, if_neg (by decide)]
    have hd : dot2 ((⟨49/100, 1/2⟩ : Vec2) - ⟨0.5, 0.5⟩) ((⟨49/100, 1/2⟩ : Vec2) - ⟨0.5, 0.5⟩)
        = (1/100 : ℚ) * (1/100) := by decide
    rw [hd, hB.sqrt_sq (1/100) (by norm_num)]
    decide
  · have hfoam : foamIntensity_masked B (aspectSt ⟨0.5, 0.5⟩ ⟨800, 600⟩) (masterTime 0 1) 1
        = 0 := by
      have hx : (1:ℚ)/100 ≤
          foamSimplexValue01 (aspectSt ⟨0.5, 0.5⟩ ⟨800, 600⟩) (masterTime 0 1) 1
            - foamBandEnd := by decide
      have hb : calculate_band_intensity B
          (foamSimplexValue01 (aspectSt ⟨0.5, 0.5⟩ ⟨800, 600⟩) (masterTime 0 1) 1)
          foamBandStart foamBandEnd foamBandSharpness = 0 := by
        apply band_intensity_above B foamBandStart (hB.fw_nonneg _) (by decide) (by decide)
        have h5 : foamBandSharpness = 5 := by decide
        rw [h5]
        nlinarith [hfw, hx,
          hB.fw_nonneg (foamSimplexValue01 (aspectSt ⟨0.5, 0.5⟩ ⟨800, 600⟩) (masterTime 0 1) 1)]
      simp only [foamIntensity_masked, foamIntensity_base]
      rw [hb, zero_mul]
    have hlap : lapLineIntensity_final B
        (distortedDistToEdge ⟨49/100, 1/2⟩ (masterTime 0 1) 1 ⟨-1, 0⟩) (masterTime 0 1)
        = 0 := by
      apply lapLineIntensity_eq_zero
      exact smoothstepQ_rev_zero (by decide) (by decide)
    have hrad : radialWaveIntensity_final B (aspectSt ⟨0.5, 0.5⟩ ⟨800, 600⟩) (masterTime 0 1) 1
        angle0 = 0 := by
      apply radialWaveIntensity_eq_zero
      exact smoothstepQ_fwd_zero (by decide) (by decide)
    rw [hfoam, hlap, hrad]
    decide

/-- C8 witness: the amended scenario bound at the concrete backend. -/
theorem center_scenario_witness :
    normalizeQ zeroB ((⟨49/100, 1/2⟩ : Vec2) - ⟨0.5, 0.5⟩) = some ⟨-1, 0⟩ ∧
    totalFoamIntensity
      (foamIntensity_masked zeroB (aspectSt ⟨0.5, 0.5⟩ ⟨800, 600⟩) (masterTime 0 1) 1)
      (lapLineIntensity_final zeroB
        (distortedDistToEdge ⟨49/100, 1/2⟩ (masterTime 0 1) 1 ⟨-1, 0⟩) (masterTime 0 1))
      (radialWaveIntensity_final zeroB (aspectSt ⟨0.5, 0.5⟩ ⟨800, 600⟩) (masterTime 0 1) 1 0)
      < 1/10 :=
  center_scenario zeroB zeroB_ok (by decide) 0

end Water
